import Mathlib

/-!
Shallow embedding of the `saml2alibabacloud` CLI core: the provider
registry (`MFAsByProvider`, `NewSAMLClient`), the interactive prompting
helpers (`PromptForLoginDetails`, `PromptForRamRoleSelection`), the
`cfg` package (`IDPAccount`, `Validate`, `ConfigManager` save/load) and
the base login-details validator (`ValidateBase.Validate`).

Go machine details are made explicit: `sort.Strings` becomes the sorted
permutation of the list (unique over a linear order, computed here by
insertion sort), Go maps become association lists, `nil` results become
`Option`, a Go runtime panic (out-of-range index) becomes an explicit
result constructor, and in-place slice mutation is modelled by explicit
state passing in the `plStep` transition relation.
-/

namespace Saml2AlibabaCloud

/-- Lexicographic comparison of two character sequences by codepoint. -/
def charsLe : List Char → List Char → Bool
  | [], _ => true
  | _ :: _, [] => false
  | a :: as, b :: bs =>
    if a.toNat < b.toNat then true
    else if b.toNat < a.toNat then false
    else charsLe as bs

/-- Go's string ordering: byte-wise (`s <= t` on the raw UTF-8 bytes), which
coincides with lexicographic comparison of the codepoint sequences because
UTF-8 encoding is order-preserving. -/
def strLe (s t : String) : Bool :=
  charsLe s.data t.data

/-- The ordering relation `sort.Strings` sorts by, as a proposition. -/
def StrLeRel (s t : String) : Prop := strLe s t = true

instance : DecidableRel StrLeRel := fun s t => by
  unfold StrLeRel; infer_instance

/-- Go `sort.Strings`: sorts a string slice lexicographically byte-wise.
Over a total order whose equal elements are identical strings, the sorted
permutation is unique, so insertion sort computes exactly the list Go's
sort produces. -/
def sortStrings (l : List String) : List String :=
  List.insertionSort StrLeRel l

/-- Default configuration values of the `cfg` package. -/
def DefaultAlibabaCloudURN : String := "urn:alibaba:cloudcomputing"

/-- Default session duration (seconds). -/
def DefaultSessionDuration : Int := 3600

/-- Default profile name used to save the credentials in the `aliyun` cli. -/
def DefaultProfile : String := "saml"

/-- `cfg.IDPAccount` — saml IDP account. Field defaults are the Go zero
values of their types, as produced by `&IDPAccount{...}` literals. -/
structure IDPAccount where
  AppID : String := ""
  URL : String := ""
  Username : String := ""
  Provider : String := ""
  MFA : String := ""
  SkipVerify : Bool := false
  Timeout : Int := 0
  AlibabaCloudURN : String := ""
  SessionDuration : Int := 0
  Profile : String := ""
  ResourceID : String := ""
  Subdomain : String := ""
  RoleARN : String := ""
  Region : String := ""
  HTTPAttemptsCount : String := ""
  HTTPRetryDelay : String := ""
  BrowserType : String := ""
  BrowserExecutablePath : String := ""
  BrowserAutoFill : Bool := false
  DownloadBrowser : Bool := false
  BrowserDriverDir : String := ""
  Headless : Bool := false
  Prompter : String := ""
deriving DecidableEq, Repr

/-- `cfg.NewIDPAccount` — create an idp account and fill in any default
fields with sane values. -/
def NewIDPAccount : IDPAccount :=
  { AlibabaCloudURN := DefaultAlibabaCloudURN
    SessionDuration := DefaultSessionDuration
    Profile := DefaultProfile }

/-- `ProviderList` — list of providers with their MFAs (Go: `map[string][]string`,
modelled as an association list; Go map iteration order never leaks because
`Names` sorts). -/
abbrev ProviderList : Type := List (String × List String)

/-- `MFAsByProvider` — a list of providers with their respective supported MFAs. -/
def MFAsByProvider : ProviderList :=
  [("AzureAD", ["Auto", "PhoneAppOTP", "PhoneAppNotification", "OneWaySMS"]),
   ("ADFS", ["Auto", "VIP", "Azure"]),
   ("ADFS2", ["Auto", "RSA"]),
   ("Ping", ["Auto"]),
   ("PingOne", ["Auto"]),
   ("JumpCloud", ["Auto"]),
   ("Okta", ["Auto", "PUSH", "DUO", "SMS", "TOTP", "OKTA", "FIDO", "YUBICO TOKEN:HARDWARE"]),
   ("OneLogin", ["Auto", "OLP", "SMS", "TOTP", "YUBIKEY"]),
   ("KeyCloak", ["Auto"]),
   ("GoogleApps", ["Auto"]),
   ("Shibboleth", ["Auto"]),
   ("F5APM", ["Auto"]),
   ("Akamai", ["Auto", "DUO", "SMS", "EMAIL", "TOTP"]),
   ("ShibbolethECP", ["auto", "phone", "push", "passcode"]),
   ("NetIQ", ["Auto", "Privileged"]),
   ("Custom", ["Auto"]),
   ("Browser", ["Auto"])]

/-- Go map indexing `mfbp[provider]`: the value when the key is present,
`nil` (here `none`) otherwise. -/
def lookupPL (mfbp : ProviderList) (provider : String) : Option (List String) :=
  match mfbp with
  | [] => none
  | (k, v) :: rest => if k = provider then some v else lookupPL rest provider

/-- `ProviderList.Names` — get a list of provider names (collect keys, sort). -/
def plNames (mfbp : ProviderList) : List String :=
  sortStrings (mfbp.map Prod.fst)

/-- The value of `ProviderList.Mfas`: `mfas := mfbp[provider]` (nil slice when
the provider is absent) sorted with `sort.Strings`. The in-place mutation the
Go sort performs on the map's slice is modelled by `plStep` below. -/
def MfasOf (mfbp : ProviderList) (provider : String) : List String :=
  sortStrings ((lookupPL mfbp provider).getD [])

/-- `ProviderList.stringInSlice` — the linear scan loop. -/
def stringInSlice (a : String) : List String → Bool
  | [] => false
  | b :: rest => if b = a then true else stringInSlice a rest

/-- `invalidMFA` — true when `mfa` is not among `MFAsByProvider.Mfas(provider)`. -/
def invalidMFA (provider mfa : String) : Bool :=
  !(stringInSlice mfa (MfasOf MFAsByProvider provider))

/-- The provider flow variants `NewSAMLClient` can construct. -/
inductive SAMLClient where
  | aad | adfs | adfs2 | pingfed | pingone | jumpcloud | okta | onelogin
  | keycloak | googleapps | shibboleth | shibbolethecp | f5apm | akamai
  | shell | netiq | browser | custom
deriving DecidableEq, Repr

/-- The two error shapes of `NewSAMLClient`:
`fmt.Errorf("invalid MFA type: %v for %v provider", mfa, provider)` and
`fmt.Errorf("invalid provider: %v", provider)`. -/
inductive ClientError where
  | invalidMFAType (mfa provider : String)
  | invalidProviderName (provider : String)
deriving DecidableEq, Repr

/-- Modelled from the spec: the per-provider flow constructors (`aad.New`,
`adfs.New`, …, `browser.New`, `custom.New`, `shell.New`) live outside the
given sources; §4.1 describes registry resolution as a pure
lookup/validation step, with no side effect and no network I/O, that on
success returns the flow for the given account, so each constructor is
modelled as plain success with its provider's flow variant. -/
def providerNew (c : SAMLClient) (_idpAccount : IDPAccount) : Except ClientError SAMLClient :=
  .ok c

/-- `NewSAMLClient` — create a new SAML client: the `switch idpAccount.Provider`
dispatcher, with its per-case `invalidMFA` guard (absent for the
`Shell`, `Browser` and `Custom` cases) and its `default` branch. -/
def NewSAMLClient (idpAccount : IDPAccount) : Except ClientError SAMLClient :=
  if idpAccount.Provider = "AzureAD" then
    if invalidMFA idpAccount.Provider idpAccount.MFA then
      .error (.invalidMFAType idpAccount.MFA idpAccount.Provider)
    else providerNew .aad idpAccount
  else if idpAccount.Provider = "ADFS" then
    if invalidMFA idpAccount.Provider idpAccount.MFA then
      .error (.invalidMFAType idpAccount.MFA idpAccount.Provider)
    else providerNew .adfs idpAccount
  else if idpAccount.Provider = "ADFS2" then
    if invalidMFA idpAccount.Provider idpAccount.MFA then
      .error (.invalidMFAType idpAccount.MFA idpAccount.Provider)
    else providerNew .adfs2 idpAccount
  else if idpAccount.Provider = "Ping" then
    if invalidMFA idpAccount.Provider idpAccount.MFA then
      .error (.invalidMFAType idpAccount.MFA idpAccount.Provider)
    else providerNew .pingfed idpAccount
  else if idpAccount.Provider = "PingOne" then
    if invalidMFA idpAccount.Provider idpAccount.MFA then
      .error (.invalidMFAType idpAccount.MFA idpAccount.Provider)
    else providerNew .pingone idpAccount
  else if idpAccount.Provider = "JumpCloud" then
    if invalidMFA idpAccount.Provider idpAccount.MFA then
      .error (.invalidMFAType idpAccount.MFA idpAccount.Provider)
    else providerNew .jumpcloud idpAccount
  else if idpAccount.Provider = "Okta" then
    if invalidMFA idpAccount.Provider idpAccount.MFA then
      .error (.invalidMFAType idpAccount.MFA idpAccount.Provider)
    else providerNew .okta idpAccount
  else if idpAccount.Provider = "OneLogin" then
    if invalidMFA idpAccount.Provider idpAccount.MFA then
      .error (.invalidMFAType idpAccount.MFA idpAccount.Provider)
    else providerNew .onelogin idpAccount
  else if idpAccount.Provider = "KeyCloak" then
    if invalidMFA idpAccount.Provider idpAccount.MFA then
      .error (.invalidMFAType idpAccount.MFA idpAccount.Provider)
    else providerNew .keycloak idpAccount
  else if idpAccount.Provider = "GoogleApps" then
    if invalidMFA idpAccount.Provider idpAccount.MFA then
      .error (.invalidMFAType idpAccount.MFA idpAccount.Provider)
    else providerNew .googleapps idpAccount
  else if idpAccount.Provider = "Shibboleth" then
    if invalidMFA idpAccount.Provider idpAccount.MFA then
      .error (.invalidMFAType idpAccount.MFA idpAccount.Provider)
    else providerNew .shibboleth idpAccount
  else if idpAccount.Provider = "ShibbolethECP" then
    if invalidMFA idpAccount.Provider idpAccount.MFA then
      .error (.invalidMFAType idpAccount.MFA idpAccount.Provider)
    else providerNew .shibbolethecp idpAccount
  else if idpAccount.Provider = "F5APM" then
    if invalidMFA idpAccount.Provider idpAccount.MFA then
      .error (.invalidMFAType idpAccount.MFA idpAccount.Provider)
    else providerNew .f5apm idpAccount
  else if idpAccount.Provider = "Akamai" then
    if invalidMFA idpAccount.Provider idpAccount.MFA then
      .error (.invalidMFAType idpAccount.MFA idpAccount.Provider)
    else providerNew .akamai idpAccount
  else if idpAccount.Provider = "Shell" then
    providerNew .shell idpAccount
  else if idpAccount.Provider = "NetIQ" then
    if invalidMFA idpAccount.Provider idpAccount.MFA then
      .error (.invalidMFAType idpAccount.MFA idpAccount.Provider)
    else providerNew .netiq idpAccount
  else if idpAccount.Provider = "Browser" then
    providerNew .browser idpAccount
  else if idpAccount.Provider = "Custom" then
    providerNew .custom idpAccount
  else
    .error (.invalidProviderName idpAccount.Provider)

/-- Modelled from the spec: `RamRole` (defined outside the given sources)
is a role display name plus role ARN plus principal/provider ARN (§3). -/
structure RamRole where
  Name : String := ""
  RoleARN : String := ""
  PrincipalARN : String := ""
deriving DecidableEq, Repr

/-- Modelled from the spec: `AlibabaCloudAccount` (defined outside the given
sources) is a named grouping of `RamRole` entries (§3). -/
structure AlibabaCloudAccount where
  Name : String := ""
  Roles : List RamRole := []
deriving DecidableEq, Repr

/-- The composite label `fmt.Sprintf("%s / %s", account.Name, role.Name)`. -/
def roleLabel (account : AlibabaCloudAccount) (role : RamRole) : String :=
  account.Name ++ " / " ++ role.Name

/-- The `roleOptions` slice built by the nested loop of
`PromptForRamRoleSelection`: one label appended per role per account, in
input order. -/
def buildRoleOptions (accounts : List AlibabaCloudAccount) : List String :=
  accounts.foldl (fun acc account => acc ++ account.Roles.map (roleLabel account)) []

/-- The `roles` map built by the same loop (`roles[name] = role`): a Go map
written in input order, so a later insertion with the same label wins.
Lookup scans the accumulated entries from the most recent. -/
def buildRolesMap (accounts : List AlibabaCloudAccount) : List (String × RamRole) :=
  accounts.foldl (fun acc account => acc ++ account.Roles.map fun r => (roleLabel account r, r)) []

/-- Go map lookup on `buildRolesMap`, last write wins; a missing key yields
the zero value, here `none` for the `*RamRole` nil pointer. -/
def rolesMapGet (m : List (String × RamRole)) (k : String) : Option RamRole :=
  match m with
  | [] => none
  | (k', r) :: rest =>
    match rolesMapGet rest k with
    | some r' => some r'
    | none => if k' = k then some r else none

/-- Outcome of `PromptForRamRoleSelection`: a Go runtime panic (the
out-of-range index `roleOptions[0]`), the wrapped chooser error, or the
`*RamRole` return value (nil pointer modelled as `none`). -/
inductive RoleSelection where
  | indexOutOfRange
  | err (msg : String)
  | ok (role : Option RamRole)
deriving DecidableEq, Repr

/-- `PromptForRamRoleSelection` — builds the label list and the label→role
map, sorts the labels (`sort.Strings`), and asks the external chooser with
`roleOptions[0]` as default. The chooser (`prompter.ChooseWithDefault`) is a
parameter: it returns the selected string or an error. With no labels,
`roleOptions[0]` is an out-of-range index: a Go panic. -/
def PromptForRamRoleSelection (chooser : String → List String → Except String String)
    (accounts : List AlibabaCloudAccount) : RoleSelection :=
  let roles := buildRolesMap accounts
  let roleOptions := sortStrings (buildRoleOptions accounts)
  match roleOptions with
  | [] => .indexOutOfRange
  | d :: rest =>
    match chooser d (d :: rest) with
    | .error _ => .err "Role selection failed"
    | .ok selectedRole => .ok (rolesMapGet roles selectedRole)

/-- Modelled from the spec: `creds.LoginDetails` (defined outside the given
sources) holds the transient credentials of one authentication attempt —
URL, username, password, client identifier/secret (§3) — plus the provider
name the base validator reads (`ld.Provider`). -/
structure LoginDetails where
  ClientID : String := ""
  ClientSecret : String := ""
  Username : String := ""
  Password : String := ""
  URL : String := ""
  Provider : String := ""
deriving DecidableEq, Repr

/-- `provider.ValidateBase.Validate` — `some msg` is the returned error,
`none` the nil error. -/
def ValidateBaseValidate (ld : LoginDetails) : Option String :=
  if ld.URL = "" then some "Empty URL"
  else if ld.Provider ≠ "Browser" then
    if ld.Username = "" then some "Empty username"
    else if ld.Password = "" then some "Empty password"
    else none
  else none

/-- The external interactive prompter (§6): `String(prompt, default)` and
`Password(prompt)`, deterministic in the prompt text within one call. -/
structure Prompter where
  stringPrompt : String → String → String
  passwordPrompt : String → String

/-- `PromptForLoginDetails` — prompts for username/password (and, for
OneLogin, client id/secret), keeping each stored secret when the prompter
returns the empty string, and returning immediately for the Browser
provider. Returns the updated `loginDetails`. -/
def PromptForLoginDetails (pr : Prompter) (loginDetails : LoginDetails)
    (provider : String) : LoginDetails :=
  if provider = "Browser" then loginDetails
  else
    let ld1 := { loginDetails with
                 Username := pr.stringPrompt "Username" loginDetails.Username }
    let enteredPassword := pr.passwordPrompt "Password"
    let ld2 := if enteredPassword ≠ "" then { ld1 with Password := enteredPassword } else ld1
    if provider = "OneLogin" then
      let ld3 :=
        if ld2.ClientID = "" then
          let enteredClientID := pr.passwordPrompt "Client ID"
          if enteredClientID ≠ "" then { ld2 with ClientID := enteredClientID } else ld2
        else ld2
      if ld3.ClientSecret = "" then
        let enteredCientSecret := pr.passwordPrompt "Client Secret"
        if enteredCientSecret ≠ "" then { ld3 with ClientSecret := enteredCientSecret } else ld3
      else ld3
    else ld2

/-! The configuration store (`ConfigManager`). The external ini library is
modelled at the level of its parsed structure: a file is a sequence of
key/value sections in order. -/

/-- One ini section: key/value pairs in file order. -/
abbrev IniSection : Type := List (String × String)

/-- The parsed configuration file: sections keyed by name, in file order. -/
abbrev ConfigSections : Type := List (String × IniSection)

/-- The on-disk state of the configuration file. Modelled from the spec: the
ini library's loose load (`ini.LoadOptions{Loose: true}`) tolerates a
missing file and a partially-invalid one, yielding the parseable sections
(§4.4, §6); `wellFormed = false` records that the raw file also carries
content that loose parsing skips. -/
inductive IniFileState where
  | missing
  | file (wellFormed : Bool) (sections : ConfigSections)
deriving DecidableEq, Repr

/-- `ini.LoadSources(ini.LoadOptions{Loose: true}, path)`: the parsed
sections; an empty configuration for a missing file. -/
def loadLoose : IniFileState → ConfigSections
  | .missing => []
  | .file _ sections => sections

/-- Find a named section. -/
def lookupSection (cfg : ConfigSections) (name : String) : Option IniSection :=
  match cfg with
  | [] => none
  | (n, sec) :: rest => if n = name then some sec else lookupSection rest name

/-- Go `strconv`-style rendering used by the ini reflection for bools. -/
def boolString (b : Bool) : String := if b then "true" else "false"

/-- The key/value pairs `ReflectFrom` derives from an `IDPAccount`, one per
struct field in declaration order, using each field's ini tag;
`omitempty`-tagged string fields are skipped when empty,
`omitempty`-tagged bool fields when false. -/
def accountKeys (a : IDPAccount) : List (String × String) :=
  [("app_id", a.AppID),
   ("url", a.URL),
   ("username", a.Username),
   ("provider", a.Provider),
   ("mfa", a.MFA),
   ("skip_verify", boolString a.SkipVerify),
   ("timeout", toString a.Timeout),
   ("alibabacloud_urn", a.AlibabaCloudURN),
   ("alibabacloud_session_duration", toString a.SessionDuration),
   ("alibabacloud_profile", a.Profile),
   ("resource_id", a.ResourceID),
   ("subdomain", a.Subdomain),
   ("role_arn", a.RoleARN),
   ("region", a.Region),
   ("http_attempts_count", a.HTTPAttemptsCount),
   ("http_retry_delay", a.HTTPRetryDelay)]
  ++ (if a.BrowserType = "" then [] else [("browser_type", a.BrowserType)])
  ++ (if a.BrowserExecutablePath = "" then []
      else [("browser_executable_path", a.BrowserExecutablePath)])
  ++ (if a.BrowserAutoFill then [("browser_autofill", boolString a.BrowserAutoFill)] else [])
  ++ [("download_browser_driver", boolString a.DownloadBrowser)]
  ++ (if a.BrowserDriverDir = "" then [] else [("browser_driver_dir", a.BrowserDriverDir)])
  ++ [("headless", boolString a.Headless),
      ("prompter", a.Prompter)]

/-- Set one key in a section: overwrite the first existing binding in
place, or append a new one. -/
def setKey (sec : IniSection) (k v : String) : IniSection :=
  match sec with
  | [] => [(k, v)]
  | (k', v') :: rest => if k' = k then (k, v) :: rest else (k', v') :: setKey rest k v

/-- `newSec.ReflectFrom(account)`: write every account key into the
section, keeping unrelated pre-existing keys. -/
def reflectFrom (sec : IniSection) (account : IDPAccount) : IniSection :=
  (accountKeys account).foldl (fun s kv => setKey s kv.1 kv.2) sec

/-- `cfg.NewSection(name)` followed by `ReflectFrom` and `SaveTo`: replace
the named section in place when it exists (the ini library returns the
existing section object), otherwise append a fresh one. -/
def upsertSection (cfg : ConfigSections) (name : String) (account : IDPAccount) :
    ConfigSections :=
  match cfg with
  | [] => [(name, reflectFrom [] account)]
  | (n, sec) :: rest =>
    if n = name then (n, reflectFrom sec account) :: rest
    else (n, sec) :: upsertSection rest name account

/-- The provider-conditional part of `IDPAccount.Validate`: the
`switch ia.Provider` block. -/
def validateProviderFields (ia : IDPAccount) : Option String :=
  if ia.Provider = "OneLogin" then
    if ia.AppID = "" then some "app ID empty in idp account"
    else if ia.Subdomain = "" then some "subdomain empty in idp account"
    else none
  else if ia.Provider = "F5APM" then
    if ia.ResourceID = "" then some "Resource ID empty in idp account"
    else none
  else if ia.Provider = "AzureAD" then
    if ia.AppID = "" then some "app ID empty in idp account"
    else none
  else none

/-- `IDPAccount.Validate` — validate the required / expected fields are
set. `urlParseOk` abstracts the external `url.Parse` call: `true` when the
URL string parses. `some msg` is the returned error, `none` success. -/
def IDPAccountValidate (urlParseOk : String → Bool) (ia : IDPAccount) : Option String :=
  match validateProviderFields ia with
  | some e => some e
  | none =>
    if ia.URL = "" then some "URL empty in idp account"
    else if ¬ urlParseOk ia.URL then some "URL parse failed"
    else if ia.Provider = "" then some "Provider empty in idp account"
    else if ia.MFA = "" then some "MFA empty in idp account"
    else if ia.Profile = "" then some "Profile empty in idp account"
    else none

/-- The observable outcome of `SaveIDPAccount`: the file state after the
call and the returned error (`none` on success). -/
structure SaveResult where
  fileState : IniFileState
  errorMsg : Option String
deriving DecidableEq, Repr

/-- `ConfigManager.SaveIDPAccount` — validate the account, loosely load
the existing file, merge the target section, write the whole file back.
A validation failure returns the wrapped error before any file I/O, so
the file state is unchanged. -/
def SaveIDPAccount (urlParseOk : String → Bool) (fs : IniFileState)
    (idpAccountName : String) (account : IDPAccount) : SaveResult :=
  match IDPAccountValidate urlParseOk account with
  | some e => { fileState := fs, errorMsg := some ("Account validation failed: " ++ e) }
  | none =>
    let cfg := loadLoose fs
    let cfg' := upsertSection cfg idpAccountName account
    { fileState := .file true cfg', errorMsg := none }

/-- Key lookup in a section (`sec.Key(k)`): the first binding. -/
def getKey (sec : IniSection) (k : String) : Option String :=
  match sec with
  | [] => none
  | (k', v) :: rest => if k' = k then some v else getKey rest k

/-- A string field under `MapTo`: the section value when the key is
present, the current field value otherwise. -/
def mapStr (sec : IniSection) (k : String) (dflt : String) : String :=
  (getKey sec k).getD dflt

/-- A bool field under `MapTo`. Modelled from the spec: the ini library
converts recognised literals and otherwise leaves the field at its
default (loose, "configure as you go" mapping, §4.4). -/
def mapBool (sec : IniSection) (k : String) (dflt : Bool) : Bool :=
  match getKey sec k with
  | some "true" => true
  | some "false" => false
  | _ => dflt

/-- An int field under `MapTo`, same convention as `mapBool`. -/
def mapInt (sec : IniSection) (k : String) (dflt : Int) : Int :=
  match getKey sec k with
  | some v => (v.toInt?).getD dflt
  | none => dflt

/-- `sec.MapTo(account)`: each struct field takes the value stored under
its ini tag, keeping its current value when the key is absent. -/
def mapTo (sec : IniSection) (a : IDPAccount) : IDPAccount :=
  { AppID := mapStr sec "app_id" a.AppID
    URL := mapStr sec "url" a.URL
    Username := mapStr sec "username" a.Username
    Provider := mapStr sec "provider" a.Provider
    MFA := mapStr sec "mfa" a.MFA
    SkipVerify := mapBool sec "skip_verify" a.SkipVerify
    Timeout := mapInt sec "timeout" a.Timeout
    AlibabaCloudURN := mapStr sec "alibabacloud_urn" a.AlibabaCloudURN
    SessionDuration := mapInt sec "alibabacloud_session_duration" a.SessionDuration
    Profile := mapStr sec "alibabacloud_profile" a.Profile
    ResourceID := mapStr sec "resource_id" a.ResourceID
    Subdomain := mapStr sec "subdomain" a.Subdomain
    RoleARN := mapStr sec "role_arn" a.RoleARN
    Region := mapStr sec "region" a.Region
    HTTPAttemptsCount := mapStr sec "http_attempts_count" a.HTTPAttemptsCount
    HTTPRetryDelay := mapStr sec "http_retry_delay" a.HTTPRetryDelay
    BrowserType := mapStr sec "browser_type" a.BrowserType
    BrowserExecutablePath := mapStr sec "browser_executable_path" a.BrowserExecutablePath
    BrowserAutoFill := mapBool sec "browser_autofill" a.BrowserAutoFill
    DownloadBrowser := mapBool sec "download_browser_driver" a.DownloadBrowser
    BrowserDriverDir := mapStr sec "browser_driver_dir" a.BrowserDriverDir
    Headless := mapBool sec "headless" a.Headless
    Prompter := mapStr sec "prompter" a.Prompter }

/-- `readAccount` — start from `NewIDPAccount()` and map the named section
onto it; `cfg.Section(name)` yields an empty section when the name is
absent. -/
def readAccount (idpAccountName : String) (cfg : ConfigSections) : IDPAccount :=
  mapTo ((lookupSection cfg idpAccountName).getD []) NewIDPAccount

/-- `ConfigManager.LoadIDPAccount` — loose load, then `readAccount`; the
error cases of the Go code cannot fire on a loosely loaded structure, so
the result is always `ok`. -/
def LoadIDPAccount (fs : IniFileState) (idpAccountName : String) :
    Except String IDPAccount :=
  .ok (readAccount idpAccountName (loadLoose fs))

/-! State-transition model of the read-only claims about `MFAsByProvider`.
`Mfas` copies the slice header out of the map and sorts it in place, so
the map's slice for that provider is left sorted: the table state after
each operation is made explicit. -/

/-- The operations the spec names on the provider table: `Names`, `Mfas`,
and the validation lookup `invalidMFA` (which calls `Mfas`). -/
inductive PLOp where
  | names
  | mfas (provider : String)
  | invalidMFAQuery (provider mfa : String)
deriving DecidableEq, Repr

/-- Replace one provider's slice value in the table (no entry is added or
removed: sorting a nil slice for an absent key leaves the map without that
key). -/
def plUpdate (mfbp : ProviderList) (provider : String) (v : List String) : ProviderList :=
  match mfbp with
  | [] => []
  | (k, w) :: rest =>
    if k = provider then (k, v) :: plUpdate rest provider v
    else (k, w) :: plUpdate rest provider v

/-- The table state after one operation. `Names` copies the keys into a
fresh slice, mutating nothing; `Mfas` (also when called from `invalidMFA`)
leaves the provider's slice sorted in place. -/
def plStep (mfbp : ProviderList) : PLOp → ProviderList
  | .names => mfbp
  | .mfas provider => plUpdate mfbp provider (MfasOf mfbp provider)
  | .invalidMFAQuery provider _ => plUpdate mfbp provider (MfasOf mfbp provider)

/-- The table state after a sequence of operations. -/
def plRun (mfbp : ProviderList) (ops : List PLOp) : ProviderList :=
  ops.foldl plStep mfbp

/-! Helper lemmas. -/

theorem charsLe_cons_iff (a b : Char) (as bs : List Char) :
    charsLe (a :: as) (b :: bs) = true ↔
      a.toNat < b.toNat ∨ (a.toNat = b.toNat ∧ charsLe as bs = true) := by
  constructor
  · intro h
    simp only [charsLe] at h
    by_cases h1 : a.toNat < b.toNat
    · exact Or.inl h1
    · by_cases h2 : b.toNat < a.toNat
      · rw [if_neg h1, if_pos h2] at h
        exact Bool.noConfusion h
      · rw [if_neg h1, if_neg h2] at h
        exact Or.inr ⟨by omega, h⟩
  · intro h
    rcases h with h | ⟨he, hc⟩
    · simp [charsLe, h]
    · simp [charsLe, he, Nat.lt_irrefl, hc]

theorem charsLe_total : ∀ as bs : List Char, charsLe as bs = true ∨ charsLe bs as = true := by
  intro as
  induction as with
  | nil => intro bs; left; rfl
  | cons a as ih =>
    intro bs
    cases bs with
    | nil => right; rfl
    | cons b bs =>
      rw [charsLe_cons_iff, charsLe_cons_iff]
      rcases Nat.lt_trichotomy a.toNat b.toNat with h | h | h
      · exact Or.inl (Or.inl h)
      · rcases ih bs with h' | h'
        · exact Or.inl (Or.inr ⟨h, h'⟩)
        · exact Or.inr (Or.inr ⟨h.symm, h'⟩)
      · exact Or.inr (Or.inl h)

theorem charsLe_trans : ∀ as bs cs : List Char,
    charsLe as bs = true → charsLe bs cs = true → charsLe as cs = true := by
  intro as
  induction as with
  | nil => intro bs cs _ _; rfl
  | cons a as ih =>
    intro bs cs h1 h2
    cases bs with
    | nil => simp [charsLe] at h1
    | cons b bs =>
      cases cs with
      | nil => simp [charsLe] at h2
      | cons c cs =>
        rw [charsLe_cons_iff] at h1 h2 ⊢
        rcases h1 with h1 | ⟨e1, c1⟩
        · rcases h2 with h2 | ⟨e2, c2⟩
          · exact Or.inl (by omega)
          · exact Or.inl (by omega)
        · rcases h2 with h2 | ⟨e2, c2⟩
          · exact Or.inl (by omega)
          · exact Or.inr ⟨by omega, ih bs cs c1 c2⟩

instance : IsTotal String StrLeRel :=
  ⟨fun a b => by unfold StrLeRel strLe; exact charsLe_total a.data b.data⟩

instance : IsTrans String StrLeRel :=
  ⟨fun a b c h1 h2 => by
    unfold StrLeRel strLe at h1 h2 ⊢
    exact charsLe_trans a.data b.data c.data h1 h2⟩

theorem sortStrings_perm (l : List String) : (sortStrings l).Perm l :=
  List.perm_insertionSort StrLeRel l

theorem sortStrings_sorted (l : List String) : List.Sorted StrLeRel (sortStrings l) :=
  List.sorted_insertionSort StrLeRel l

theorem mem_sortStrings {a : String} {l : List String} : a ∈ sortStrings l ↔ a ∈ l :=
  (sortStrings_perm l).mem_iff

theorem stringInSlice_eq_true_iff {a : String} :
    ∀ {l : List String}, stringInSlice a l = true ↔ a ∈ l := by
  intro l
  induction l with
  | nil => simp [stringInSlice]
  | cons b rest ih =>
    by_cases h : b = a
    · simp [stringInSlice, h]
    · simp [stringInSlice, h, ih, Ne.symm h]

theorem stringInSlice_mfasOf_iff {p m : String} :
    stringInSlice m (MfasOf MFAsByProvider p) = true ↔
      m ∈ (lookupPL MFAsByProvider p).getD [] := by
  rw [stringInSlice_eq_true_iff]
  unfold MfasOf
  exact mem_sortStrings

theorem invalidMFA_eq_true_iff {p m : String} :
    invalidMFA p m = true ↔ m ∉ (lookupPL MFAsByProvider p).getD [] := by
  rw [invalidMFA, Bool.not_eq_true']
  rw [show (stringInSlice m (MfasOf MFAsByProvider p) = false) ↔
      ¬(stringInSlice m (MfasOf MFAsByProvider p) = true) from by simp]
  exact not_congr stringInSlice_mfasOf_iff

theorem invalidMFA_eq_false_iff {p m : String} :
    invalidMFA p m = false ↔ m ∈ (lookupPL MFAsByProvider p).getD [] := by
  rw [show (invalidMFA p m = false) ↔ ¬(invalidMFA p m = true) from by simp]
  rw [invalidMFA_eq_true_iff]
  tauto

theorem lookupPL_isSome_iff {mfbp : ProviderList} {p : String} :
    (lookupPL mfbp p).isSome = true ↔ p ∈ mfbp.map Prod.fst := by
  induction mfbp with
  | nil => simp [lookupPL]
  | cons kv rest ih =>
    by_cases h : kv.1 = p
    · simp [lookupPL, h]
    · simp [lookupPL, h, ih, Ne.symm h]

theorem gate_error_iff (p m : String) (c : SAMLClient) :
    ((if invalidMFA p m = true then Except.error (ClientError.invalidMFAType m p)
      else Except.ok c) = Except.error (ClientError.invalidMFAType m p)) ↔
      m ∉ (lookupPL MFAsByProvider p).getD [] := by
  cases hb : invalidMFA p m with
  | false =>
    rw [if_neg (by simp [hb])]
    have hm := invalidMFA_eq_false_iff.mp hb
    exact iff_of_false (by simp) (fun hn => hn hm)
  | true =>
    rw [if_pos (by simp [hb])]
    exact iff_of_true rfl (invalidMFA_eq_true_iff.mp hb)

theorem gate_ok (p m : String) (c : SAMLClient)
    (hm : m ∈ (lookupPL MFAsByProvider p).getD []) :
    (if invalidMFA p m = true then Except.error (ClientError.invalidMFAType m p)
     else Except.ok c) = Except.ok c := by
  rw [if_neg]
  simp [invalidMFA_eq_false_iff.mpr hm]

theorem NewSAMLClient_checked (ia : IDPAccount)
    (h : ia.Provider ∈ ["AzureAD", "ADFS", "ADFS2", "Ping", "PingOne", "JumpCloud", "Okta",
      "OneLogin", "KeyCloak", "GoogleApps", "Shibboleth", "ShibbolethECP", "F5APM", "Akamai",
      "NetIQ"]) :
    ∃ c, NewSAMLClient ia =
      if invalidMFA ia.Provider ia.MFA = true then
        Except.error (ClientError.invalidMFAType ia.MFA ia.Provider)
      else Except.ok c := by
  simp only [List.mem_cons, List.not_mem_nil, or_false] at h
  rcases h with h | h | h | h | h | h | h | h | h | h | h | h | h | h | h
  · exact ⟨.aad, by simp [NewSAMLClient, h, providerNew]⟩
  · exact ⟨.adfs, by simp [NewSAMLClient, h, providerNew]⟩
  · exact ⟨.adfs2, by simp [NewSAMLClient, h, providerNew]⟩
  · exact ⟨.pingfed, by simp [NewSAMLClient, h, providerNew]⟩
  · exact ⟨.pingone, by simp [NewSAMLClient, h, providerNew]⟩
  · exact ⟨.jumpcloud, by simp [NewSAMLClient, h, providerNew]⟩
  · exact ⟨.okta, by simp [NewSAMLClient, h, providerNew]⟩
  · exact ⟨.onelogin, by simp [NewSAMLClient, h, providerNew]⟩
  · exact ⟨.keycloak, by simp [NewSAMLClient, h, providerNew]⟩
  · exact ⟨.googleapps, by simp [NewSAMLClient, h, providerNew]⟩
  · exact ⟨.shibboleth, by simp [NewSAMLClient, h, providerNew]⟩
  · exact ⟨.shibbolethecp, by simp [NewSAMLClient, h, providerNew]⟩
  · exact ⟨.f5apm, by simp [NewSAMLClient, h, providerNew]⟩
  · exact ⟨.akamai, by simp [NewSAMLClient, h, providerNew]⟩
  · exact ⟨.netiq, by simp [NewSAMLClient, h, providerNew]⟩

/-- C1: for every `IDPAccount` whose `Provider` is a key of `MFAsByProvider`,
`NewSAMLClient` fails with the invalid-MFA error exactly when the account's
`MFA` string is not among that provider's supported MFA identifiers
(case-sensitive exact string comparison), except for the out-of-band
providers `Browser`, `Shell` and `Custom`, for which resolution succeeds
regardless of the MFA value. The model is a pure function: no network I/O
occurs. -/
theorem newSAMLClient_mfa_gate (ia : IDPAccount)
    (hkey : (lookupPL MFAsByProvider ia.Provider).isSome = true) :
    (ia.Provider = "Browser" ∨ ia.Provider = "Shell" ∨ ia.Provider = "Custom" →
        ∃ c, NewSAMLClient ia = Except.ok c) ∧
    (¬(ia.Provider = "Browser" ∨ ia.Provider = "Shell" ∨ ia.Provider = "Custom") →
        ((NewSAMLClient ia =
            Except.error (ClientError.invalidMFAType ia.MFA ia.Provider)) ↔
          ia.MFA ∉ (lookupPL MFAsByProvider ia.Provider).getD []) ∧
        (ia.MFA ∈ (lookupPL MFAsByProvider ia.Provider).getD [] →
          ∃ c, NewSAMLClient ia = Except.ok c)) := by
  have hmem := lookupPL_isSome_iff.mp hkey
  constructor
  · intro hoob
    rcases hoob with h | h | h
    · exact ⟨.browser, by simp [NewSAMLClient, h, providerNew]⟩
    · exact ⟨.shell, by simp [NewSAMLClient, h, providerNew]⟩
    · exact ⟨.custom, by simp [NewSAMLClient, h, providerNew]⟩
  · intro hnoob
    have hchecked : ia.Provider ∈ ["AzureAD", "ADFS", "ADFS2", "Ping", "PingOne", "JumpCloud",
        "Okta", "OneLogin", "KeyCloak", "GoogleApps", "Shibboleth", "ShibbolethECP", "F5APM",
        "Akamai", "NetIQ"] := by
      simp only [MFAsByProvider, List.map_cons, List.map_nil, List.mem_cons,
        List.not_mem_nil, or_false] at hmem
      simp only [List.mem_cons, List.not_mem_nil, or_false]
      tauto
    obtain ⟨c, hc⟩ := NewSAMLClient_checked ia hchecked
    constructor
    · rw [hc]
      exact gate_error_iff ia.Provider ia.MFA c
    · intro hm
      refine ⟨c, ?_⟩
      rw [hc]
      exact gate_ok ia.Provider ia.MFA c hm

theorem newSAMLClient_mfa_gate_witness :
    ∃ c, NewSAMLClient { Provider := "AzureAD", MFA := "Auto" } = Except.ok c :=
  ((newSAMLClient_mfa_gate { Provider := "AzureAD", MFA := "Auto" } (by decide)).2
    (by decide)).2 (by decide)

/-- C2 counterexample: `"Shell"` is not a key of `MFAsByProvider`, yet
`NewSAMLClient` on a `Shell`-provider account succeeds instead of failing
with the unknown-provider error. -/
theorem newSAMLClient_shell_counterexample :
    lookupPL MFAsByProvider "Shell" = none ∧
    NewSAMLClient { Provider := "Shell" } = Except.ok SAMLClient.shell :=
  ⟨rfl, rfl⟩

/-- C2 (amended): for every provider name that is neither a key of
`MFAsByProvider` nor the separately dispatched name `"Shell"`,
`NewSAMLClient` fails with the unknown-provider error and returns no
client. -/
theorem newSAMLClient_unknown_provider (ia : IDPAccount)
    (hnone : lookupPL MFAsByProvider ia.Provider = none)
    (hshell : ia.Provider ≠ "Shell") :
    NewSAMLClient ia = Except.error (ClientError.invalidProviderName ia.Provider) := by
  have hmem : ia.Provider ∉ MFAsByProvider.map Prod.fst := by
    intro hm
    rw [← lookupPL_isSome_iff] at hm
    simp [hnone] at hm
  simp only [MFAsByProvider, List.map_cons, List.map_nil, List.mem_cons,
    List.not_mem_nil, or_false, not_or] at hmem
  obtain ⟨h1, h2, h3, h4, h5, h6, h7, h8, h9, h10, h11, h12, h13, h14, h15, h16, h17⟩ := hmem
  simp [NewSAMLClient, h1, h2, h3, h4, h5, h6, h7, h8, h9, h10, h11, h12, h13, h14, h15,
    h16, h17, hshell]

theorem newSAMLClient_unknown_provider_witness :
    NewSAMLClient { Provider := "NoSuchIdp" } =
      Except.error (ClientError.invalidProviderName "NoSuchIdp") :=
  newSAMLClient_unknown_provider { Provider := "NoSuchIdp" } (by decide) (by decide)

/-- C3: for every account list carrying at least one role,
`PromptForRamRoleSelection` builds one composite label per role across
every account (`buildRoleOptions`), presents them to the chooser in
lexicographic byte-wise sorted order, and offers the first label of that
sorted order as the default: the call behaves exactly as handing the
chooser the sorted label list with its head as default. -/
theorem promptForRamRoleSelection_sorted (accounts : List AlibabaCloudAccount)
    (hne : buildRoleOptions accounts ≠ []) :
    (sortStrings (buildRoleOptions accounts)).Perm (buildRoleOptions accounts) ∧
    List.Sorted StrLeRel (sortStrings (buildRoleOptions accounts)) ∧
    ∀ chooser, PromptForRamRoleSelection chooser accounts =
      match chooser ((sortStrings (buildRoleOptions accounts)).headD "")
          (sortStrings (buildRoleOptions accounts)) with
      | .error _ => .err "Role selection failed"
      | .ok sel => .ok (rolesMapGet (buildRolesMap accounts) sel) := by
  have hsne : sortStrings (buildRoleOptions accounts) ≠ [] := by
    intro h0
    exact hne (((sortStrings_perm (buildRoleOptions accounts)).symm.trans (h0 ▸ .refl _)).eq_nil)
  refine ⟨sortStrings_perm _, sortStrings_sorted _, fun chooser => ?_⟩
  obtain ⟨d, rest, hd⟩ : ∃ d rest, sortStrings (buildRoleOptions accounts) = d :: rest := by
    cases hs : sortStrings (buildRoleOptions accounts) with
    | nil => exact absurd hs hsne
    | cons d rest => exact ⟨d, rest, rfl⟩
  simp only [PromptForRamRoleSelection]
  rw [hd]
  simp only [List.headD_cons]

theorem promptForRamRoleSelection_sorted_witness :
    sortStrings (buildRoleOptions
        [{ Name := "Acct2", Roles := [{ Name := "Admin" }] },
         { Name := "Acct1", Roles := [{ Name := "Admin" }, { Name := "Viewer" }] }]) =
      ["Acct1 / Admin", "Acct1 / Viewer", "Acct2 / Admin"] ∧
    List.Sorted StrLeRel ["Acct1 / Admin", "Acct1 / Viewer", "Acct2 / Admin"] ∧
    PromptForRamRoleSelection (fun d _ => Except.ok d)
        [{ Name := "Acct2", Roles := [{ Name := "Admin" }] },
         { Name := "Acct1", Roles := [{ Name := "Admin" }, { Name := "Viewer" }] }] =
      RoleSelection.ok (some { Name := "Admin" }) := by
  have hsort : sortStrings (buildRoleOptions
      [{ Name := "Acct2", Roles := [{ Name := "Admin" }] },
       { Name := "Acct1", Roles := [{ Name := "Admin" }, { Name := "Viewer" }] }]) =
      ["Acct1 / Admin", "Acct1 / Viewer", "Acct2 / Admin"] := by decide
  have h := promptForRamRoleSelection_sorted
    [{ Name := "Acct2", Roles := [{ Name := "Admin" }] },
     { Name := "Acct1", Roles := [{ Name := "Admin" }, { Name := "Viewer" }] }]
    (by decide)
  refine ⟨hsort, hsort ▸ h.2.1, ?_⟩
  rw [h.2.2 (fun d _ => Except.ok d), hsort]
  decide

/-- C4: the spec requires a `NoRolesAvailable` error for an account list
with no roles, but the code reaches the out-of-range index
`roleOptions[0]`: with an empty account list (or accounts whose role
lists are all empty) `PromptForRamRoleSelection` panics instead of
returning an error. -/
theorem promptForRamRoleSelection_empty_panics :
    PromptForRamRoleSelection (fun d _ => Except.ok d) [] =
      RoleSelection.indexOutOfRange ∧
    PromptForRamRoleSelection (fun d _ => Except.ok d) [{ Name := "Acct1", Roles := [] }] =
      RoleSelection.indexOutOfRange :=
  ⟨rfl, rfl⟩

/-- C9: the base login-details validator accepts exactly the details with a
non-empty URL that either belong to the `Browser` provider or carry a
non-empty username and password; so an empty URL is always rejected, a
non-`Browser` provider is additionally rejected on an empty username or
password, and `Browser` with a non-empty URL passes even with both
credentials empty. -/
theorem validateBase_characterization (ld : LoginDetails) :
    ValidateBaseValidate ld = none ↔
      ld.URL ≠ "" ∧ (ld.Provider = "Browser" ∨ (ld.Username ≠ "" ∧ ld.Password ≠ "")) := by
  unfold ValidateBaseValidate
  split_ifs with h1 h2 h3 h4 <;> simp_all

theorem validateBase_characterization_witness :
    ValidateBaseValidate { URL := "https://idp.example.com", Provider := "Browser" } = none :=
  (validateBase_characterization
    { URL := "https://idp.example.com", Provider := "Browser" }).mpr (by decide)

/-- C10: `PromptForLoginDetails` never clears a stored secret: when the
prompter answers the `Password` (or `Client ID`, `Client Secret`) prompt
with the empty string the corresponding field keeps its prior value, and
for the `Browser` provider the whole record is returned unchanged. -/
theorem promptForLoginDetails_preserves (pr : Prompter) (ld : LoginDetails)
    (provider : String) :
    (pr.passwordPrompt "Password" = "" →
      (PromptForLoginDetails pr ld provider).Password = ld.Password) ∧
    (pr.passwordPrompt "Client ID" = "" →
      (PromptForLoginDetails pr ld provider).ClientID = ld.ClientID) ∧
    (pr.passwordPrompt "Client Secret" = "" →
      (PromptForLoginDetails pr ld provider).ClientSecret = ld.ClientSecret) ∧
    (provider = "Browser" → PromptForLoginDetails pr ld provider = ld) := by
  by_cases hb : provider = "Browser"
  · simp [PromptForLoginDetails, hb]
  · by_cases ho : provider = "OneLogin"
    · by_cases hp : pr.passwordPrompt "Password" = "" <;>
        by_cases hcid : ld.ClientID = "" <;>
        by_cases hcidp : pr.passwordPrompt "Client ID" = "" <;>
        by_cases hcs : ld.ClientSecret = "" <;>
        by_cases hcsp : pr.passwordPrompt "Client Secret" = "" <;>
        simp [PromptForLoginDetails, hb, ho, hp, hcid, hcidp, hcs, hcsp]
    · by_cases hp : pr.passwordPrompt "Password" = "" <;>
        simp [PromptForLoginDetails, hb, ho, hp]

theorem promptForLoginDetails_preserves_witness :
    (PromptForLoginDetails
        { stringPrompt := fun _ d => d, passwordPrompt := fun _ => "" }
        { Username := "u", Password := "stored", ClientID := "cid", ClientSecret := "cs" }
        "OneLogin").Password = "stored" :=
  (promptForLoginDetails_preserves
    { stringPrompt := fun _ d => d, passwordPrompt := fun _ => "" }
    { Username := "u", Password := "stored", ClientID := "cid", ClientSecret := "cs" }
    "OneLogin").1 rfl

/-- C5: `SaveIDPAccount` validates before any file I/O: validation fails
exactly on the provider-conditional and common conditions of
`IDPAccount.Validate`; on failure the file state is untouched and the
wrapped validation error is returned; on success the account section is
written with no error. -/
theorem saveIDPAccount_validates_first (urlParseOk : String → Bool) (fs : IniFileState)
    (name : String) (ia : IDPAccount) :
    ((IDPAccountValidate urlParseOk ia).isSome = true ↔
      ((ia.Provider = "OneLogin" ∧ (ia.AppID = "" ∨ ia.Subdomain = "")) ∨
       (ia.Provider = "F5APM" ∧ ia.ResourceID = "") ∨
       (ia.Provider = "AzureAD" ∧ ia.AppID = "") ∨
       ia.URL = "" ∨ urlParseOk ia.URL = false ∨
       ia.Provider = "" ∨ ia.MFA = "" ∨ ia.Profile = "")) ∧
    (∀ e, IDPAccountValidate urlParseOk ia = some e →
      SaveIDPAccount urlParseOk fs name ia =
        { fileState := fs, errorMsg := some ("Account validation failed: " ++ e) }) ∧
    (IDPAccountValidate urlParseOk ia = none →
      SaveIDPAccount urlParseOk fs name ia =
        { fileState := .file true (upsertSection (loadLoose fs) name ia),
          errorMsg := none }) := by
  refine ⟨?_, ?_, ?_⟩
  · unfold IDPAccountValidate validateProviderFields
    split_ifs <;> simp_all
  · intro e he
    unfold SaveIDPAccount
    rw [he]
  · intro he
    unfold SaveIDPAccount
    rw [he]

theorem saveIDPAccount_validates_first_witness :
    SaveIDPAccount (fun _ => true) .missing "work"
        { URL := "https://idp.example.com", Provider := "OneLogin", MFA := "Auto",
          Profile := "saml", AppID := "123", Subdomain := "corp" } =
      { fileState := .file true (upsertSection [] "work"
          { URL := "https://idp.example.com", Provider := "OneLogin", MFA := "Auto",
            Profile := "saml", AppID := "123", Subdomain := "corp" }),
        errorMsg := none } :=
  (saveIDPAccount_validates_first (fun _ => true) .missing "work"
    { URL := "https://idp.example.com", Provider := "OneLogin", MFA := "Auto",
      Profile := "saml", AppID := "123", Subdomain := "corp" }).2.2 rfl

theorem lookupSection_upsert_ne (cfg : ConfigSections) (name : String) (ia : IDPAccount)
    {other : String} (h : other ≠ name) :
    lookupSection (upsertSection cfg name ia) other = lookupSection cfg other := by
  induction cfg with
  | nil => simp [upsertSection, lookupSection, Ne.symm h]
  | cons kv rest ih =>
    obtain ⟨n, sec⟩ := kv
    by_cases hn : n = name
    · subst hn
      simp [upsertSection, lookupSection, Ne.symm h]
    · simp [upsertSection, lookupSection, hn, ih]

/-- C6: a successful `SaveIDPAccount` is read-modify-write on the shared
configuration file: every section other than the one being saved keeps
exactly its prior content, and the save never fails on load — also from a
missing or partially-invalid existing file. -/
theorem saveIDPAccount_frame (urlParseOk : String → Bool) (fs : IniFileState)
    (name : String) (ia : IDPAccount)
    (hval : IDPAccountValidate urlParseOk ia = none) :
    (SaveIDPAccount urlParseOk fs name ia).errorMsg = none ∧
    ∀ other, other ≠ name →
      lookupSection (loadLoose (SaveIDPAccount urlParseOk fs name ia).fileState) other =
        lookupSection (loadLoose fs) other := by
  unfold SaveIDPAccount
  rw [hval]
  exact ⟨rfl, fun other hother => lookupSection_upsert_ne (loadLoose fs) name ia hother⟩

theorem saveIDPAccount_frame_witness :
    lookupSection
      (loadLoose (SaveIDPAccount (fun _ => true)
          (.file true [("work", [("url", "https://old.example.com")])]) "home"
          { URL := "https://idp.example.com", Provider := "Okta", MFA := "Auto",
            Profile := "saml" }).fileState) "work" =
      some [("url", "https://old.example.com")] := by
  rw [(saveIDPAccount_frame (fun _ => true)
      (.file true [("work", [("url", "https://old.example.com")])]) "home"
      { URL := "https://idp.example.com", Provider := "Okta", MFA := "Auto",
        Profile := "saml" } rfl).2 "work" (by decide)]
  rfl

/-- C7: loading a name whose section is absent from the loosely loaded file
(including a wholly missing file) never errors: it returns the fresh
default-initialized account — URN, session duration and profile at their
defaults, every other field at its zero value. -/
theorem loadIDPAccount_missing_section (fs : IniFileState) (name : String)
    (habsent : lookupSection (loadLoose fs) name = none) :
    LoadIDPAccount fs name = .ok NewIDPAccount ∧
    NewIDPAccount.AlibabaCloudURN = DefaultAlibabaCloudURN ∧
    NewIDPAccount.SessionDuration = DefaultSessionDuration ∧
    NewIDPAccount.Profile = DefaultProfile ∧
    NewIDPAccount.URL = "" ∧ NewIDPAccount.Provider = "" ∧ NewIDPAccount.MFA = "" ∧
    NewIDPAccount.Username = "" ∧ NewIDPAccount.AppID = "" ∧
    NewIDPAccount.Subdomain = "" ∧ NewIDPAccount.ResourceID = "" := by
  refine ⟨?_, rfl, rfl, rfl, rfl, rfl, rfl, rfl, rfl, rfl, rfl⟩
  unfold LoadIDPAccount readAccount
  rw [habsent]
  rfl

theorem loadIDPAccount_missing_section_witness :
    LoadIDPAccount .missing "work" = .ok NewIDPAccount :=
  (loadIDPAccount_missing_section .missing "work" rfl).1

theorem plUpdate_keys (mfbp : ProviderList) (p : String) (v : List String) :
    (plUpdate mfbp p v).map Prod.fst = mfbp.map Prod.fst := by
  induction mfbp with
  | nil => rfl
  | cons kv rest ih =>
    obtain ⟨k, w⟩ := kv
    by_cases h : k = p <;> simp [plUpdate, h, ih]

theorem lookupPL_plUpdate (mfbp : ProviderList) (p q : String) (v : List String) :
    lookupPL (plUpdate mfbp p v) q =
      if q = p then (lookupPL mfbp q).map (fun _ => v) else lookupPL mfbp q := by
  induction mfbp with
  | nil => simp [plUpdate, lookupPL]
  | cons kv rest ih =>
    obtain ⟨k, w⟩ := kv
    by_cases hk : k = p <;> by_cases hq : k = q
    · subst hk
      subst hq
      simp [plUpdate, lookupPL]
    · subst hk
      simp [plUpdate, lookupPL, hq, ih]
    · subst hq
      simp [plUpdate, lookupPL, hk, ih]
    · simp [plUpdate, lookupPL, hk, hq, ih]

theorem plStep_keys (mfbp : ProviderList) (op : PLOp) :
    (plStep mfbp op).map Prod.fst = mfbp.map Prod.fst := by
  cases op with
  | names => rfl
  | mfas p => exact plUpdate_keys mfbp p _
  | invalidMFAQuery p m => exact plUpdate_keys mfbp p _

theorem plStep_perm (mfbp : ProviderList) (op : PLOp) (p : String) :
    ((lookupPL (plStep mfbp op) p).getD []).Perm ((lookupPL mfbp p).getD []) := by
  cases op with
  | names => exact .refl _
  | mfas q =>
    show ((lookupPL (plUpdate mfbp q (MfasOf mfbp q)) p).getD []).Perm _
    rw [lookupPL_plUpdate]
    by_cases hq : p = q
    · subst hq
      rw [if_pos rfl]
      cases hl : lookupPL mfbp p with
      | none => simp
      | some l =>
        simp only [Option.map_some, Option.getD_some]
        have : MfasOf mfbp p = sortStrings l := by rw [MfasOf, hl]; rfl
        rw [this]
        exact sortStrings_perm l
    · rw [if_neg hq]
  | invalidMFAQuery q m =>
    show ((lookupPL (plUpdate mfbp q (MfasOf mfbp q)) p).getD []).Perm _
    rw [lookupPL_plUpdate]
    by_cases hq : p = q
    · subst hq
      rw [if_pos rfl]
      cases hl : lookupPL mfbp p with
      | none => simp
      | some l =>
        simp only [Option.map_some, Option.getD_some]
        have : MfasOf mfbp p = sortStrings l := by rw [MfasOf, hl]; rfl
        rw [this]
        exact sortStrings_perm l
    · rw [if_neg hq]

theorem plRun_preserves (ops : List PLOp) (mfbp : ProviderList) (p : String) :
    (plRun mfbp ops).map Prod.fst = mfbp.map Prod.fst ∧
    ((lookupPL (plRun mfbp ops) p).getD []).Perm ((lookupPL mfbp p).getD []) := by
  induction ops generalizing mfbp with
  | nil => exact ⟨rfl, .refl _⟩
  | cons op ops ih =>
    have hrun : plRun mfbp (op :: ops) = plRun (plStep mfbp op) ops := rfl
    rw [hrun]
    exact ⟨(ih (plStep mfbp op)).1.trans (plStep_keys mfbp op),
      (ih (plStep mfbp op)).2.trans (plStep_perm mfbp op p)⟩

/-- C8 counterexample: calling `Mfas` on `"AzureAD"` sorts the slice stored
in the global table in place, so the table after the call differs from its
initial value — the stored slice for `"AzureAD"` has changed order. -/
theorem mfas_mutates_table :
    lookupPL MFAsByProvider "AzureAD" =
      some ["Auto", "PhoneAppOTP", "PhoneAppNotification", "OneWaySMS"] ∧
    lookupPL (plStep MFAsByProvider (.mfas "AzureAD")) "AzureAD" =
      some ["Auto", "OneWaySMS", "PhoneAppNotification", "PhoneAppOTP"] ∧
    plStep MFAsByProvider (.mfas "AzureAD") ≠ MFAsByProvider :=
  ⟨rfl, by decide, by decide⟩

/-- C8 (amended): the operations on `MFAsByProvider` (`Names`, `Mfas`, the
`invalidMFA` lookup) never add or remove a provider and never change the
multiset of MFA identifiers stored for any provider; `Mfas` may however
reorder a provider's slice in place, so only the order within a slice can
differ from the initial table. -/
theorem providerTable_sets_invariant (ops : List PLOp) (p : String) :
    (plRun MFAsByProvider ops).map Prod.fst = MFAsByProvider.map Prod.fst ∧
    ((lookupPL (plRun MFAsByProvider ops) p).getD []).Perm
      ((lookupPL MFAsByProvider p).getD []) :=
  plRun_preserves ops MFAsByProvider p

theorem providerTable_sets_invariant_witness :
    (plRun MFAsByProvider [PLOp.mfas "AzureAD"]).map Prod.fst =
      MFAsByProvider.map Prod.fst ∧
    ((lookupPL (plRun MFAsByProvider [PLOp.mfas "AzureAD"]) "AzureAD").getD []).Perm
      ((lookupPL MFAsByProvider "AzureAD").getD []) :=
  providerTable_sets_invariant [PLOp.mfas "AzureAD"] "AzureAD"

end Saml2AlibabaCloud
